import Mathlib

/-!
# Verification of the clearical inference gateway (src/python)

A shallow embedding, in Lean 4, of the concurrency- and validation-relevant
parts of the FastVLM inference server found in `src/python/server.py` and
`src/python/reasoning.py`, together with theorems settling the
specification claims about it.

Only code the staged source actually defines is embedded. `server.py` and
`reasoning.py` parse cleanly and are embedded below. `src/python/inference.py`
does not parse: the `DEFAULT_PROMPT` triple-quoted string opened at its
line 33 is never closed (the file has an odd number of `"""` tokens), so the
literal swallows the `def get_model_path() -> str:` header and terminates at
the docstring opener on line 55, after which the indented docstring text is
a `SyntaxError` (unexpected indent, line 56). The module can never be
imported, so none of its functions (`load_model`, `analyze_screenshot`, the
output normalization, the `mlx_vlm.generate` call) exist in the program; no
definition here embeds them.

Conventions:
* Python strings are modelled by Lean `String`.
* Python floats that only ever hold small decimal constants (temperatures,
  confidences, timeouts) are modelled by `ℚ`.
* The opaque external collaborators (the model loader, the generation call),
  per the spec's §6, are supplied as explicit oracle values.
-/

namespace Clearical

/-! ## Endpoints, locks, pool and admission constants (server.py) -/

/-- The three inference endpoints of `server.py`
(`POST /analyze`, `POST /summarize`, `POST /classify`). -/
inductive Endpoint
  | analyze
  | summarize
  | classify
deriving DecidableEq

/-- The mutual-exclusion primitives created at module scope in `server.py`.
The module creates exactly one: `_model_lock = threading.Lock()`
(server.py line 63). -/
inductive LockId
  | modelLock
deriving DecidableEq

/-- Which lock a request handler acquires around its engine call.
`locked_analyze`, `locked_summarize` and `locked_classify` all execute
`with _model_lock:` (server.py lines 370, 449, 531), so every endpoint maps
to the single `_model_lock`. -/
def lockFor : Endpoint → LockId
  | .analyze => LockId.modelLock
  | .summarize => LockId.modelLock
  | .classify => LockId.modelLock

/-- `_max_concurrent_requests = 2` (server.py line 74); the admission
semaphore `_request_semaphore = threading.Semaphore(_max_concurrent_requests)`
is created with this many permits. -/
def maxConcurrentRequests : Nat := 2

/-- Per-endpoint deadline, in seconds, passed to `asyncio.wait_for`:
`timeout=60.0` for analyze (line 389), `timeout=120.0` for summarize
(line 466), `timeout=30.0` for classify (line 547). -/
def timeoutSeconds : Endpoint → ℚ
  | .analyze => 60
  | .summarize => 120
  | .classify => 30

/-- The outcome of awaiting the submitted work item, as observed by the
request handler after admission. -/
inductive WorkResult
  | result (success : Bool) (error : Option String)
  | timedOut
  | brokenPipe
  | raised (msg : String)
deriving DecidableEq

/-- HTTP status produced by the handler's `try/except` ladder once a permit
was acquired and the future awaited (server.py lines 392-416, 469-499,
550-573): a returned dict with `success=False` becomes a 500, a
`success=True` dict a 200 response, `asyncio.TimeoutError` a 504,
`BrokenPipeError` a 499 (handled only in `summarize`; elsewhere it falls to
the generic `except Exception` 500), any other exception a 500. -/
def responseStatus : Endpoint → WorkResult → Nat
  | _, .result true _ => 200
  | _, .result false _ => 500
  | _, .timedOut => 504
  | .summarize, .brokenPipe => 499
  | .analyze, .brokenPipe => 500
  | .classify, .brokenPipe => 500
  | _, .raised _ => 500

/-- The HTTP status returned when the non-blocking
`_request_semaphore.acquire(blocking=False)` fails
(server.py lines 357-362, 436-441, 518-523). -/
def busyStatus : Nat := 503

/-! ## Classification result parsing (reasoning.py `classify_activity`)

```python
if not options:
    return {"success": False, "error": "No options provided"}
...
response = generate_text(prompt, max_tokens=10)
numbers = re.findall(r'\d+', response)
if numbers:
    idx = int(numbers[0]) - 1
    if 0 <= idx < len(options):
        return {"success": True, "selected_id": options[idx]['id'],
                "selected_name": options[idx]['name'], "confidence": 0.8}
return {"success": True, "selected_id": options[0]['id'],
        "selected_name": options[0]['name'], "confidence": 0.5}
```
The engine reply is supplied as the `response` argument.
-/

/-- `re.findall(r'\d+', s)`: the maximal runs of consecutive decimal digits
of `s`, in order. -/
def digitRuns : List Char → List (List Char)
  | [] => []
  | c :: cs =>
    let rest := digitRuns cs
    if c.isDigit then
      match cs with
      | d :: _ =>
        if d.isDigit then
          match rest with
          | r :: rs => (c :: r) :: rs
          | [] => [[c]]
        else [c] :: rest
      | [] => [[c]]
    else rest

/-- Python `int` on a non-empty string of decimal digits. -/
def digitsToNat (l : List Char) : Nat :=
  l.foldl (fun acc c => 10 * acc + (c.toNat - 48)) 0

/-- The dict returned by `reasoning.classify_activity` (and surfaced as the
`/classify` response body). -/
structure ClassifyOutcome where
  success : Bool
  selected_id : Option String
  selected_name : Option String
  confidence : Option ℚ
  error : Option String
deriving DecidableEq

/-- Option-selection logic of `reasoning.classify_activity`
(reasoning.py lines 219-220 and 239-258), with the engine reply `response`
given: empty option list fails; otherwise the first digit run of the reply,
read as a 1-based index, selects an option with confidence `0.8` when in
range, and the first option is the fallback with confidence `0.5`. -/
def classify_activity (options : List (String × String)) (response : String) :
    ClassifyOutcome :=
  match options with
  | [] => ⟨false, none, none, none, some "No options provided"⟩
  | o₀ :: _ =>
    let fallback : ClassifyOutcome := ⟨true, some o₀.1, some o₀.2, some (1/2 : ℚ), none⟩
    match digitRuns response.data with
    | [] => fallback
    | n :: _ =>
      let k := digitsToNat n
      if 1 ≤ k ∧ k - 1 < options.length then
        let opt := options.getD (k - 1) o₀
        ⟨true, some opt.1, some opt.2, some (4/5 : ℚ), none⟩
      else fallback

/-! ## Generation arguments (C10)

Only the reasoning generation path exists in the program: `reasoning.py`
parses and its `generate_text` is called by both `summarize_activities` and
`classify_activity`. (The vision-engine call site that would transform the
temperature lives in the unparseable `inference.py` and is therefore not part
of the program, hence not embedded.)
-/

/-- The keyword arguments `reasoning.generate_text` passes to
`mlx_lm.generate`; `temperature = none` records that no temperature keyword
is passed at all. -/
structure LmGenerateArgs where
  max_tokens : Nat
  temperature : Option ℚ
  verbose : Bool
deriving DecidableEq

set_option linter.unusedVariables false in
/-- `reasoning.generate_text(prompt, max_tokens, temperature)` invokes
`generate(model, tokenizer, prompt=prompt, max_tokens=max_tokens,
verbose=False)` (reasoning.py lines 142-148): the `temperature` parameter it
received is dropped, no temperature argument reaches the engine. -/
def generate_text_args (max_tokens : Nat) (temperature : ℚ) : LmGenerateArgs :=
  { max_tokens := max_tokens
    temperature := none
    verbose := false }

/-! ## Engine cache (C2)

`reasoning.load_reasoning_model` (reasoning.py lines 60-109) guards its
global cache `_reasoning_model_cache` like this:

```python
if _reasoning_model_cache is not None:
    return _reasoning_model_cache
...
model, tokenizer = load(model_path)
...
_reasoning_model_cache = (model, tokenizer)
return model, tokenizer
except Exception as e:
    ...
    raise                       # cache left untouched (None)
```

The cache is assigned only after a successful load; on failure the exception
is re-raised and the cache stays `None`. The external loader's behaviour on
each attempt is supplied as an oracle value `Except String Nat` (a handle,
abstracted as `Nat`, or the raised error's message).

This is the only engine loader the program defines: the vision-engine
counterpart would be `inference.load_model`, but `inference.py` never parses
(see the header), so no vision load can ever be attempted.
-/

/-- One call to `load_reasoning_model` given the cache contents and what the
external loader would do if invoked. Returns the call's result, the new
cache contents, and whether a load attempt was performed. -/
def load_reasoning_model (attempt : Except String Nat) (cache : Option Nat) :
    Except String Nat × Option Nat × Bool :=
  match cache with
  | some m => (Except.ok m, some m, false)
  | none =>
    match attempt with
    | Except.ok m => (Except.ok m, some m, true)
    | Except.error e => (Except.error e, none, true)

/-- A sequence of `load_reasoning_model` calls: `attempts[k]` is what the
loader would do on the `k`-th call if invoked. Returns the per-call results,
the final cache contents, and the total number of load attempts performed. -/
def runLoadCalls (attempts : List (Except String Nat)) (cache : Option Nat) :
    List (Except String Nat) × Option Nat × Nat :=
  match attempts with
  | [] => ([], cache, 0)
  | a :: as =>
    let r := load_reasoning_model a cache
    let rest := runLoadCalls as r.2.1
    (r.1 :: rest.1, rest.2.1, (if r.2.2 then 1 else 0) + rest.2.2)

/-- `Except.error`? -/
def isErr (a : Except String Nat) : Bool :=
  match a with
  | Except.error _ => true
  | Except.ok _ => false

/-! ## The admission / exclusivity transition system (server.py handlers)

Each of the three handlers follows the same shape (server.py lines 342-421,
424-503, 506-577):

```python
if not _request_semaphore.acquire(blocking=False):
    raise HTTPException(status_code=503, ...)          # before the try block
try:
    def locked_work():
        with _model_lock:
            ...engine call...
    result = await asyncio.wait_for(loop.run_in_executor(_inference_pool, locked_work), timeout=...)
    ...
finally:
    _request_semaphore.release()
```

We model a fixed population of `n` concurrent requests (with arbitrary
endpoint kinds) interleaving through this code as a labelled small-step
relation. A request holds an admission permit from a successful
non-blocking `acquire` until the `finally` release; it holds
`lockFor kind` (the single `_model_lock`) exactly while its engine call is
in flight. -/

/-- How a request's processing concludes once admitted: the four exit paths
of the handler's `try` (success, engine failure surfaced in the result dict,
`asyncio.TimeoutError`, any other exception). -/
inductive Outcome
  | success
  | engineFailure
  | timeout
  | exception
deriving DecidableEq

/-- Lifecycle phase of one request: `received` (arrived, about to try
admission), `admitted` (permit held, work not yet holding the lock),
`invoking` (permit and `_model_lock` held, engine call in flight),
`finished o` (engine work over, lock released, permit still held — the
handler is in its `except`/response logic), `released` (terminal: the
`finally` ran), `rejected` (terminal: admission denied, 503 raised before
the `try`). -/
inductive Phase
  | received
  | admitted
  | invoking
  | finished (o : Outcome)
  | released
  | rejected
deriving DecidableEq

/-- Global state: free permits of `_request_semaphore`, whether each lock is
held, and each request's phase. -/
structure GatewayState (n : Nat) where
  sem : Nat
  lockHeld : LockId → Bool
  phase : Fin n → Phase

/-- The initial state: `threading.Semaphore(_max_concurrent_requests)` full,
`_model_lock` free, every request still to arrive. -/
def initState (n : Nat) : GatewayState n :=
  { sem := maxConcurrentRequests
    lockHeld := fun _ => false
    phase := fun _ => Phase.received }

/-- Transition labels: which request moves, and how. -/
inductive Label (n : Nat)
  | acquire (i : Fin n)
  | reject (i : Fin n)
  | beginInvoke (i : Fin n)
  | endInvoke (i : Fin n) (o : Outcome)
  | release (i : Fin n)
deriving DecidableEq

/-- The small-step relation, parameterized by each request's endpoint kind.
`acquire`/`reject` are the two outcomes of the non-blocking semaphore
acquire; `beginInvoke`/`endInvoke` bracket the `with lockFor kind:` engine
call; `release` is the `finally` clause. -/
inductive Step {n : Nat} (kinds : Fin n → Endpoint) :
    Label n → GatewayState n → GatewayState n → Prop
  | acquire {s : GatewayState n} {i : Fin n} :
      s.phase i = Phase.received → 0 < s.sem →
      Step kinds (Label.acquire i) s
        { s with sem := s.sem - 1
                 phase := Function.update s.phase i Phase.admitted }
  | reject {s : GatewayState n} {i : Fin n} :
      s.phase i = Phase.received → s.sem = 0 →
      Step kinds (Label.reject i) s
        { s with phase := Function.update s.phase i Phase.rejected }
  | beginInvoke {s : GatewayState n} {i : Fin n} :
      s.phase i = Phase.admitted → s.lockHeld (lockFor (kinds i)) = false →
      Step kinds (Label.beginInvoke i) s
        { s with lockHeld := Function.update s.lockHeld (lockFor (kinds i)) true
                 phase := Function.update s.phase i Phase.invoking }
  | endInvoke {s : GatewayState n} {i : Fin n} {o : Outcome} :
      s.phase i = Phase.invoking →
      Step kinds (Label.endInvoke i o) s
        { s with lockHeld := Function.update s.lockHeld (lockFor (kinds i)) false
                 phase := Function.update s.phase i (Phase.finished o) }
  | release {s : GatewayState n} {i : Fin n} {o : Outcome} :
      s.phase i = Phase.finished o →
      Step kinds (Label.release i) s
        { s with sem := s.sem + 1
                 phase := Function.update s.phase i Phase.released }

/-- An interleaved execution: the list of labels fired between two states. -/
inductive Trace {n : Nat} (kinds : Fin n → Endpoint) :
    GatewayState n → List (Label n) → GatewayState n → Prop
  | nil (s : GatewayState n) : Trace kinds s [] s
  | cons {s s' s'' : GatewayState n} {l : Label n} {ls : List (Label n)} :
      Step kinds l s s' → Trace kinds s' ls s'' → Trace kinds s (l :: ls) s''

/-- Reachability under some interleaving. -/
def Reach {n : Nat} (kinds : Fin n → Endpoint)
    (s s' : GatewayState n) : Prop :=
  ∃ ls, Trace kinds s ls s'

/-- `1` iff this phase holds an admission permit. -/
def permitWeight : Phase → Nat
  | Phase.admitted => 1
  | Phase.invoking => 1
  | Phase.finished _ => 1
  | _ => 0

/-- Number of admission permits currently held. -/
def heldPermits {n : Nat} (s : GatewayState n) : Nat :=
  ∑ i, permitWeight (s.phase i)

/-- `1` iff this phase has an engine call in flight. -/
def invokeWeight : Phase → Nat
  | Phase.invoking => 1
  | _ => 0

/-- Number of engine calls currently in flight. -/
def invokingCount {n : Nat} (s : GatewayState n) : Nat :=
  ∑ i, invokeWeight (s.phase i)

/-- The inductive invariant of the gateway: permits outstanding plus free
semaphore slots always equal the configured maximum, at most one engine call
is in flight, and a free `_model_lock` means no engine call is in flight. -/
structure Inv {n : Nat} (s : GatewayState n) : Prop where
  semBound : s.sem + heldPermits s = maxConcurrentRequests
  invokeLe : invokingCount s ≤ 1
  lockFree : s.lockHeld LockId.modelLock = false → invokingCount s = 0

/-- Number of `release i` labels in a trace: how many times request `i`'s
`finally` block ran `_request_semaphore.release()`. -/
def releaseCount {n : Nat} (i : Fin n) (ls : List (Label n)) : Nat :=
  ls.countP (fun l => decide (l = Label.release i))

/-- `1` exactly for the terminal phase reached through the `finally`
release. -/
def phaseReleases : Phase → Nat
  | Phase.released => 1
  | _ => 0

@[simp] lemma pw_received : permitWeight Phase.received = 0 := rfl
@[simp] lemma pw_admitted : permitWeight Phase.admitted = 1 := rfl
@[simp] lemma pw_invoking : permitWeight Phase.invoking = 1 := rfl
@[simp] lemma pw_finished (o : Outcome) : permitWeight (Phase.finished o) = 1 := rfl
@[simp] lemma pw_released : permitWeight Phase.released = 0 := rfl
@[simp] lemma pw_rejected : permitWeight Phase.rejected = 0 := rfl
@[simp] lemma iw_received : invokeWeight Phase.received = 0 := rfl
@[simp] lemma iw_admitted : invokeWeight Phase.admitted = 0 := rfl
@[simp] lemma iw_invoking : invokeWeight Phase.invoking = 1 := rfl
@[simp] lemma iw_finished (o : Outcome) : invokeWeight (Phase.finished o) = 0 := rfl
@[simp] lemma iw_released : invokeWeight Phase.released = 0 := rfl
@[simp] lemma iw_rejected : invokeWeight Phase.rejected = 0 := rfl

lemma lockFor_eq (e : Endpoint) : lockFor e = LockId.modelLock := by
  cases e <;> rfl

/-- Updating one request's phase shifts a weight-sum by the weight
difference. -/
lemma sum_update_weight {n : Nat} (w : Phase → Nat) (f : Fin n → Phase)
    (i : Fin n) (v : Phase) :
    (∑ j, w (Function.update f i v j)) + w (f i) = (∑ j, w (f j)) + w v := by
  rw [Finset.sum_eq_add_sum_diff_singleton (Finset.mem_univ i)
      (fun j => w (Function.update f i v j)),
    Finset.sum_eq_add_sum_diff_singleton (Finset.mem_univ i) (fun j => w (f j)),
    Function.update_same]
  have hs : ∑ j ∈ Finset.univ \ {i}, w (Function.update f i v j)
      = ∑ j ∈ Finset.univ \ {i}, w (f j) := by
    refine Finset.sum_congr rfl fun j hj => ?_
    rw [Function.update_noteq (Finset.not_mem_singleton.mp (Finset.mem_sdiff.mp hj).2)]
  rw [hs]
  omega

/-- Every step of the gateway preserves the invariant. -/
lemma inv_step {n : Nat} {kinds : Fin n → Endpoint} {l : Label n}
    {s s' : GatewayState n} (hstep : Step kinds l s s') (hInv : Inv s) : Inv s' := by
  obtain ⟨hsem, hinv1, hfree⟩ := hInv
  simp only [heldPermits, invokingCount] at hsem hinv1 hfree
  cases hstep with
  | acquire hph hpos =>
    rename_i i
    have hp := sum_update_weight permitWeight s.phase i Phase.admitted
    have hv := sum_update_weight invokeWeight s.phase i Phase.admitted
    rw [hph] at hp hv
    simp only [pw_received, pw_admitted, iw_received, iw_admitted] at hp hv
    exact ⟨by simp only [heldPermits]; omega, by simp only [invokingCount]; omega,
      fun h => by simp only [invokingCount]; have := hfree h; omega⟩
  | reject hph hzero =>
    rename_i i
    have hp := sum_update_weight permitWeight s.phase i Phase.rejected
    have hv := sum_update_weight invokeWeight s.phase i Phase.rejected
    rw [hph] at hp hv
    simp only [pw_received, pw_rejected, iw_received, iw_rejected] at hp hv
    exact ⟨by simp only [heldPermits]; omega, by simp only [invokingCount]; omega,
      fun h => by simp only [invokingCount]; have := hfree h; omega⟩
  | beginInvoke hph hlock =>
    rename_i i
    have hp := sum_update_weight permitWeight s.phase i Phase.invoking
    have hv := sum_update_weight invokeWeight s.phase i Phase.invoking
    rw [hph] at hp hv
    simp only [pw_admitted, pw_invoking, iw_admitted, iw_invoking] at hp hv
    rw [lockFor_eq (kinds i)] at hlock
    have hzero := hfree hlock
    refine ⟨by simp only [heldPermits]; omega, by simp only [invokingCount]; omega, fun h => ?_⟩
    rw [show ({ s with
          lockHeld := Function.update s.lockHeld (lockFor (kinds i)) true
          phase := Function.update s.phase i Phase.invoking } : GatewayState n).lockHeld
        = Function.update s.lockHeld (lockFor (kinds i)) true from rfl,
      lockFor_eq (kinds i), Function.update_same] at h
    exact absurd h (by simp)
  | endInvoke hph =>
    rename_i i o
    have hp := sum_update_weight permitWeight s.phase i (Phase.finished o)
    have hv := sum_update_weight invokeWeight s.phase i (Phase.finished o)
    rw [hph] at hp hv
    simp only [pw_invoking, pw_finished, iw_invoking, iw_finished] at hp hv
    exact ⟨by simp only [heldPermits]; omega, by simp only [invokingCount]; omega,
      fun _ => by simp only [invokingCount]; omega⟩
  | release hph =>
    rename_i i o
    have hp := sum_update_weight permitWeight s.phase i Phase.released
    have hv := sum_update_weight invokeWeight s.phase i Phase.released
    rw [hph] at hp hv
    simp only [pw_finished, pw_released, iw_finished, iw_released] at hp hv
    exact ⟨by simp only [heldPermits]; omega, by simp only [invokingCount]; omega,
      fun h => by simp only [invokingCount]; have := hfree h; omega⟩

/-- The invariant holds initially. -/
lemma inv_init (n : Nat) : Inv (initState n) := by
  refine ⟨?_, ?_, fun _ => ?_⟩ <;>
    simp [initState, heldPermits, invokingCount, maxConcurrentRequests]

/-- The invariant holds along any trace from an invariant state. -/
lemma inv_trace {n : Nat} {kinds : Fin n → Endpoint} {s s' : GatewayState n}
    {ls : List (Label n)} (h : Trace kinds s ls s') (hInv : Inv s) : Inv s' := by
  induction h with
  | nil => exact hInv
  | cons hstep _ ih => exact ih (inv_step hstep hInv)

/-- The invariant holds in every reachable state. -/
lemma inv_reach {n : Nat} {kinds : Fin n → Endpoint} {s : GatewayState n}
    (h : Reach kinds (initState n) s) : Inv s := by
  obtain ⟨ls, htr⟩ := h
  exact inv_trace htr (inv_init n)

/-- Two distinct requests are never simultaneously invoking an engine. -/
lemma mutex_of_inv {n : Nat} {s : GatewayState n} (hInv : Inv s) {i j : Fin n}
    (hij : i ≠ j) :
    ¬(s.phase i = Phase.invoking ∧ s.phase j = Phase.invoking) := by
  rintro ⟨hi, hj⟩
  have hpair : (∑ x ∈ ({i, j} : Finset (Fin n)), invokeWeight (s.phase x))
      = invokeWeight (s.phase i) + invokeWeight (s.phase j) := Finset.sum_pair hij
  have hsub : (∑ x ∈ ({i, j} : Finset (Fin n)), invokeWeight (s.phase x))
      ≤ ∑ x, invokeWeight (s.phase x) :=
    Finset.sum_le_sum_of_subset (Finset.subset_univ _)
  rw [hpair, hi, hj] at hsub
  simp only [iw_invoking] at hsub
  have := hInv.invokeLe
  simp only [invokingCount] at this
  omega

/-- Mutual exclusion in every reachable state. -/
lemma mutex_of_reach {n : Nat} {kinds : Fin n → Endpoint} {s : GatewayState n}
    (h : Reach kinds (initState n) s) {i j : Fin n} (hij : i ≠ j) :
    ¬(s.phase i = Phase.invoking ∧ s.phase j = Phase.invoking) :=
  mutex_of_inv (inv_reach h) hij

@[simp] lemma releaseCount_nil {n : Nat} (i : Fin n) : releaseCount i ([] : List (Label n)) = 0 := rfl

lemma releaseCount_cons {n : Nat} (i : Fin n) (l : Label n) (ls : List (Label n)) :
    releaseCount i (l :: ls)
      = releaseCount i ls + (if l = Label.release i then 1 else 0) := by
  simp [releaseCount, List.countP_cons]

@[simp] lemma prl_received : phaseReleases Phase.received = 0 := rfl
@[simp] lemma prl_admitted : phaseReleases Phase.admitted = 0 := rfl
@[simp] lemma prl_invoking : phaseReleases Phase.invoking = 0 := rfl
@[simp] lemma prl_finished (o : Outcome) : phaseReleases (Phase.finished o) = 0 := rfl
@[simp] lemma prl_released : phaseReleases Phase.released = 1 := rfl
@[simp] lemma prl_rejected : phaseReleases Phase.rejected = 0 := rfl

/-- Along any trace, the number of `release i` labels equals the change of
request `i`'s release indicator: a request releases its permit exactly when
it moves from `finished` to the terminal `released` phase, and never
again. -/
lemma trace_releaseCount {n : Nat} {kinds : Fin n → Endpoint}
    {s s' : GatewayState n} {ls : List (Label n)} (h : Trace kinds s ls s')
    (i : Fin n) :
    phaseReleases (s'.phase i) = phaseReleases (s.phase i) + releaseCount i ls := by
  induction h with
  | nil s => simp
  | cons hstep htail ih =>
    clear htail
    rw [ih, releaseCount_cons]
    cases hstep with
    | acquire hph hpos =>
      rename_i j
      by_cases hij : i = j
      · subst hij; simp [Function.update_same, hph]
      · simp [Function.update_noteq hij]
    | reject hph hzero =>
      rename_i j
      by_cases hij : i = j
      · subst hij; simp [Function.update_same, hph]
      · simp [Function.update_noteq hij]
    | beginInvoke hph hlock =>
      rename_i j
      by_cases hij : i = j
      · subst hij; simp [Function.update_same, hph]
      · simp [Function.update_noteq hij]
    | endInvoke hph =>
      rename_i j o
      by_cases hij : i = j
      · subst hij; simp [Function.update_same, hph]
      · simp [Function.update_noteq hij]
    | release hph =>
      rename_i j o
      by_cases hij : i = j
      · subst hij
        simp [Function.update_same, hph]
        omega
      · have hlab : ¬(Label.release j = Label.release i) := by
          intro hcon
          exact hij (by cases hcon; rfl)
        simp [Function.update_noteq hij, hlab]

/-- A terminal population holds no permits. -/
lemma heldPermits_zero_of_terminal {n : Nat} {s : GatewayState n}
    (hterm : ∀ i, s.phase i = Phase.released ∨ s.phase i = Phase.rejected) :
    heldPermits s = 0 :=
  Finset.sum_eq_zero fun i _ => by rcases hterm i with h | h <;> simp [h]

/-- A phase update at a non-`rejected` request keeps a `rejected` request
rejected. -/
lemma update_preserves_rejected {n : Nat} {f : Fin n → Phase} {i j : Fin n}
    {v : Phase} (hrej : f i = Phase.rejected) (hph : f j ≠ Phase.rejected) :
    Function.update f j v i = Phase.rejected := by
  by_cases hij : i = j
  · subst hij; exact absurd hrej hph
  · rw [Function.update_noteq hij]; exact hrej

/-- A cached reasoning-model handle short-circuits every later call: no
further load attempts, every caller observes the cached handle. -/
lemma runLoadCalls_cached (attempts : List (Except String Nat)) (m : Nat) :
    runLoadCalls attempts (some m)
      = (attempts.map (fun _ => Except.ok m), some m, 0) := by
  induction attempts with
  | nil => rfl
  | cons a as ih => simp [runLoadCalls, load_reasoning_model, ih]

/-- With an empty cache, the number of load attempts over a call sequence is
one per leading failure plus one more call (if any remain): failures are
retried, the first success stops all further attempts. -/
lemma runLoadCalls_attempt_count (attempts : List (Except String Nat)) :
    (runLoadCalls attempts none).2.2
      = min ((attempts.takeWhile isErr).length + 1) attempts.length := by
  induction attempts with
  | nil => rfl
  | cons a as ih =>
    cases a with
    | error e =>
      simp [runLoadCalls, load_reasoning_model, isErr, List.takeWhile_cons, ih]
      omega
    | ok m =>
      simp [runLoadCalls, load_reasoning_model, isErr, List.takeWhile_cons, runLoadCalls_cached]

/-- A failed load leaves the cache empty and the next call behaves exactly
as a fresh first call: one more attempt is performed. -/
lemma runLoadCalls_error_cons (e : String) (attempts : List (Except String Nat)) :
    runLoadCalls (Except.error e :: attempts) none
      = (Except.error e :: (runLoadCalls attempts none).1,
         (runLoadCalls attempts none).2.1,
         (runLoadCalls attempts none).2.2 + 1) := by
  simp [runLoadCalls, load_reasoning_model, Nat.add_comm]

/-! ## Claim theorems -/

/-- C1, amended: all three endpoints acquire the one and the same
`_model_lock`, so in every reachable state of the gateway no two requests —
whatever their endpoint kinds, in particular an `analyze` and a
`summarize`/`classify` — have engine invocations overlapping in time. -/
theorem claim_C1 {n : Nat} (kinds : Fin n → Endpoint) (s : GatewayState n)
    (h : Reach kinds (initState n) s) (i j : Fin n) (hij : i ≠ j) :
    lockFor (kinds i) = lockFor (kinds j) ∧
    ¬(s.phase i = Phase.invoking ∧ s.phase j = Phase.invoking) :=
  ⟨(lockFor_eq (kinds i)).trans (lockFor_eq (kinds j)).symm, mutex_of_reach h hij⟩

/-- C1's amended theorem instantiated at a concrete two-request system
(an `analyze` and a `summarize` request) in its initial state. -/
theorem claim_C1_witness :
    lockFor ((fun i : Fin 2 => if i = 0 then Endpoint.analyze else Endpoint.summarize) 0)
      = lockFor ((fun i : Fin 2 => if i = 0 then Endpoint.analyze else Endpoint.summarize) 1) ∧
    ¬((initState 2).phase 0 = Phase.invoking ∧ (initState 2).phase 1 = Phase.invoking) :=
  claim_C1 (fun i : Fin 2 => if i = 0 then Endpoint.analyze else Endpoint.summarize)
    (initState 2) ⟨[], Trace.nil _⟩ 0 1 (by decide)

/-- C1 is false as stated: the lock primitives acquired by an `analyze`
request and by a `summarize` (or `classify`) request are the same
`_model_lock`, not distinct and independent ones, and consequently a
vision-engine invocation and a reasoning-engine invocation can never
overlap in execution time under any interleaving. -/
theorem claim_C1_counterexample :
    lockFor Endpoint.analyze = lockFor Endpoint.summarize ∧
    lockFor Endpoint.analyze = lockFor Endpoint.classify ∧
    ∀ s : GatewayState 2,
      Reach (fun i : Fin 2 => if i = 0 then Endpoint.analyze else Endpoint.summarize)
        (initState 2) s →
      ¬(s.phase 0 = Phase.invoking ∧ s.phase 1 = Phase.invoking) :=
  ⟨rfl, rfl, fun _ h => mutex_of_reach h (by decide)⟩

/-- C2, amended, settled against the one engine loader the program defines
(`reasoning.load_reasoning_model`; the vision engine's loader is in the
unparseable `inference.py`, so no vision load attempt can ever occur): a
successful load is performed at most once per process and cached — with a
cached handle no call ever attempts a load again and every caller observes
the cached handle. But a failed load is not cached: over a sequence of calls
starting with an empty cache the number of load attempts is one per leading
failure plus one more (each failing call re-attempts the load), and after a
failed call the cache is still empty, so the next call performs a fresh load
attempt. -/
theorem claim_C2 :
    (∀ (attempts : List (Except String Nat)) (m : Nat),
      runLoadCalls attempts (some m)
        = (attempts.map (fun _ => Except.ok m), some m, 0)) ∧
    (∀ attempts : List (Except String Nat),
      (runLoadCalls attempts none).2.2
        = min ((attempts.takeWhile isErr).length + 1) attempts.length) ∧
    (∀ (e : String) (attempts : List (Except String Nat)),
      runLoadCalls (Except.error e :: attempts) none
        = (Except.error e :: (runLoadCalls attempts none).1,
           (runLoadCalls attempts none).2.1,
           (runLoadCalls attempts none).2.2 + 1)) :=
  ⟨runLoadCalls_cached, runLoadCalls_attempt_count, runLoadCalls_error_cons⟩

/-- C2 is false as stated for the reasoning engine: with the loader failing,
two requests perform two load attempts (the claim allows at most one per
engine kind per process lifetime), the failure is not cached (the cache is
still empty afterwards), and the second caller observes the second attempt's
error, not a cached copy of the first. -/
theorem claim_C2_counterexample :
    (runLoadCalls [Except.error "missing weights", Except.error "still missing"] none).2.2
      = 2 ∧
    (runLoadCalls [Except.error "missing weights", Except.error "still missing"] none).2.1
      = none ∧
    (runLoadCalls [Except.error "missing weights", Except.error "still missing"] none).1
      = [Except.error "missing weights", Except.error "still missing"] :=
  ⟨rfl, rfl, rfl⟩

/-- C3: in every state reachable under any interleaving the number of
admission permits held never exceeds the configured maximum of 2; a request
that arrives when the semaphore has no free permit is rejected with the 503
busy signal by a step that performs no other work (the semaphore, the lock
and every other request are untouched), and a rejected request is terminal:
no later step ever changes it. -/
theorem claim_C3 {n : Nat} (kinds : Fin n → Endpoint) (s : GatewayState n)
    (h : Reach kinds (initState n) s) :
    heldPermits s ≤ maxConcurrentRequests ∧
    maxConcurrentRequests = 2 ∧ busyStatus = 503 ∧
    (∀ (i : Fin n) (s' : GatewayState n), Step kinds (Label.reject i) s s' →
      s.sem = 0 ∧ s'.sem = s.sem ∧ s'.lockHeld = s.lockHeld ∧
      s'.phase i = Phase.rejected ∧ ∀ j : Fin n, j ≠ i → s'.phase j = s.phase j) ∧
    (∀ (i : Fin n) (l : Label n) (s' : GatewayState n),
      s.phase i = Phase.rejected → Step kinds l s s' → s'.phase i = Phase.rejected) := by
  have hInv := inv_reach h
  refine ⟨?_, rfl, rfl, ?_, ?_⟩
  · have := hInv.semBound
    omega
  · intro i s' hstep
    cases hstep with
    | reject hph hzero =>
      exact ⟨hzero, rfl, rfl, by simp [Function.update_same],
        fun j hj => Function.update_noteq hj _ _⟩
  · intro i l s' hrej hstep
    cases hstep with
    | acquire hph hpos => exact update_preserves_rejected hrej (by simp [hph])
    | reject hph hzero => exact update_preserves_rejected hrej (by simp [hph])
    | beginInvoke hph hlock => exact update_preserves_rejected hrej (by simp [hph])
    | endInvoke hph => exact update_preserves_rejected hrej (by simp [hph])
    | release hph => exact update_preserves_rejected hrej (by simp [hph])

/-- C3's theorem instantiated at a concrete one-request system in its
initial state. -/
theorem claim_C3_witness :
    heldPermits (initState 1) ≤ maxConcurrentRequests :=
  (claim_C3 (fun _ : Fin 1 => Endpoint.analyze) (initState 1) ⟨[], Trace.nil _⟩).1

/-- C4: over any complete interleaved execution (every request terminal),
a request that was admitted released its permit exactly once — whatever its
exit path (success, engine failure, timeout, or unexpected exception) — a
request rejected at admission never released, and the semaphore's free
permit count is back to its initial value. -/
theorem claim_C4 {n : Nat} (kinds : Fin n → Endpoint) (ls : List (Label n))
    (s : GatewayState n) (h : Trace kinds (initState n) ls s)
    (hterm : ∀ i, s.phase i = Phase.released ∨ s.phase i = Phase.rejected) :
    (∀ i, s.phase i = Phase.released → releaseCount i ls = 1) ∧
    (∀ i, s.phase i = Phase.rejected → releaseCount i ls = 0) ∧
    s.sem = (initState n).sem := by
  refine ⟨fun i hi => ?_, fun i hi => ?_, ?_⟩
  · have hrc := trace_releaseCount h i
    rw [hi] at hrc
    simp [initState] at hrc
    omega
  · have hrc := trace_releaseCount h i
    rw [hi] at hrc
    simp [initState] at hrc
    omega
  · have hInv := inv_trace h (inv_init n)
    have hz := heldPermits_zero_of_terminal hterm
    have := hInv.semBound
    simp [initState]
    omega

/-- C4's theorem instantiated at a one-request system running a full
acquire / invoke / timeout / release cycle. -/
theorem claim_C4_witness :
    releaseCount (0 : Fin 1)
      [Label.acquire 0, Label.beginInvoke 0, Label.endInvoke 0 Outcome.timeout,
        Label.release 0] = 1 := by
  have hex : ∃ sfin : GatewayState 1,
      Trace (fun _ : Fin 1 => Endpoint.analyze) (initState 1)
        [Label.acquire 0, Label.beginInvoke 0, Label.endInvoke 0 Outcome.timeout,
          Label.release 0] sfin ∧
      (∀ i, sfin.phase i = Phase.released ∨ sfin.phase i = Phase.rejected) ∧
      sfin.phase 0 = Phase.released := by
    refine ⟨_, Trace.cons (Step.acquire rfl (by decide))
      (Trace.cons (Step.beginInvoke rfl rfl)
        (Trace.cons (Step.endInvoke rfl)
          (Trace.cons (Step.release rfl) (Trace.nil _)))), fun i => ?_, rfl⟩
    left
    fin_cases i
    rfl
  obtain ⟨sfin, htr, hterm, h0⟩ := hex
  exact (claim_C4 _ _ _ htr hterm).1 0 h0

/-- C7: the deadline passed to `asyncio.wait_for` is exactly 60 seconds for
analyze, 120 for summarize and 30 for classify, and for every endpoint the
deadline expiry is reported as a 504, distinct from the 500 of a generation
failure. -/
theorem claim_C7 :
    timeoutSeconds Endpoint.analyze = 60 ∧
    timeoutSeconds Endpoint.summarize = 120 ∧
    timeoutSeconds Endpoint.classify = 30 ∧
    (∀ e : Endpoint, responseStatus e WorkResult.timedOut = 504) ∧
    (∀ (e : Endpoint) (msg : Option String),
      responseStatus e (WorkResult.result false msg) = 500) ∧
    (∀ (e : Endpoint) (msg : Option String),
      responseStatus e WorkResult.timedOut
        ≠ responseStatus e (WorkResult.result false msg)) := by
  have h4 : ∀ e : Endpoint, responseStatus e WorkResult.timedOut = 504 := fun e => by
    cases e <;> rfl
  have h5 : ∀ (e : Endpoint) (msg : Option String),
      responseStatus e (WorkResult.result false msg) = 500 := fun e msg => by
    cases e <;> rfl
  refine ⟨rfl, rfl, rfl, h4, h5, fun e msg => ?_⟩
  rw [h4, h5]
  decide

/-- C9, amended: for a non-empty option list the result always reports
success; when the first number appearing in the engine's reply, read
1-based, indexes a valid option, that option is returned with confidence
exactly 0.8; otherwise (no number at all, or the first number out of range)
the first option is returned with confidence exactly 0.5. -/
theorem claim_C9 (o₀ : String × String) (rest : List (String × String))
    (response : String) :
    (classify_activity (o₀ :: rest) response).success = true ∧
    (∀ num tl, digitRuns response.data = num :: tl →
      1 ≤ digitsToNat num → digitsToNat num - 1 < (o₀ :: rest).length →
      classify_activity (o₀ :: rest) response =
        ⟨true, some (((o₀ :: rest).getD (digitsToNat num - 1) o₀)).1,
          some (((o₀ :: rest).getD (digitsToNat num - 1) o₀)).2,
          some (4/5 : ℚ), none⟩) ∧
    ((digitRuns response.data = [] ∨
      ∀ num tl, digitRuns response.data = num :: tl →
        ¬(1 ≤ digitsToNat num ∧ digitsToNat num - 1 < (o₀ :: rest).length)) →
      classify_activity (o₀ :: rest) response =
        ⟨true, some o₀.1, some o₀.2, some (1/2 : ℚ), none⟩) := by
  refine ⟨?_, fun num tl hdr h1 h2 => ?_, fun hfall => ?_⟩
  · rcases hdr : digitRuns response.data with _ | ⟨num, tl⟩
    · simp [classify_activity, hdr]
    · simp only [classify_activity, hdr]
      split <;> rfl
  · simp only [classify_activity, hdr]
    rw [if_pos ⟨h1, h2⟩]
  · rcases hfall with hnil | hall
    · simp [classify_activity, hnil]
    · rcases hdr : digitRuns response.data with _ | ⟨num, tl⟩
      · simp [classify_activity, hdr]
      · simp only [classify_activity, hdr]
        rw [if_neg (hall num tl hdr)]

/-- C9's amended theorem instantiated: reply "2" against two options selects
the second option with confidence 0.8. -/
theorem claim_C9_witness :
    classify_activity [("a", "Alpha"), ("b", "Beta")] "2"
      = ⟨true, some "b", some "Beta", some (4/5 : ℚ), none⟩ :=
  (claim_C9 ("a", "Alpha") [("b", "Beta")] "2").2.1 ['2'] [] (by decide)
    (by decide) (by decide)

/-- C9 is false as stated: the reply "0 2" contains the number 2, which
1-based indexes the valid second option ("b"), yet the code inspects only
the first number found (0, out of range) and falls back to the first option
with confidence 0.5 instead of returning option "b" with confidence 0.8. -/
theorem claim_C9_counterexample :
    (∃ num ∈ digitRuns "0 2".data,
      digitsToNat num = 2 ∧
      1 ≤ digitsToNat num ∧
      digitsToNat num ≤ ([("a", "Alpha"), ("b", "Beta")] : List (String × String)).length) ∧
    classify_activity [("a", "Alpha"), ("b", "Beta")] "0 2"
      = ⟨true, some "a", some "Alpha", some (1/2 : ℚ), none⟩ ∧
    some "a" ≠ some "b" ∧
    (1/2 : ℚ) ≠ 4/5 := by
  refine ⟨⟨['2'], by decide, by decide, by decide, by decide⟩, rfl, by simp, by norm_num⟩

/-- C10, the half the program defines: the reasoning generation path used by
summarize and classify drops the temperature parameter it received —
`generate_text` passes `max_tokens` through to `mlx_lm.generate` but no
temperature argument at all. (The claim's vision half describes the
`mlx_vlm.generate` call site of `inference.py`, a module that never parses,
so the program contains no vision-engine invocation to check.) -/
theorem claim_C10 (max_tokens : Nat) (temperature : ℚ) :
    (generate_text_args max_tokens temperature).temperature = none ∧
    (generate_text_args max_tokens temperature).max_tokens = max_tokens ∧
    (generate_text_args max_tokens temperature).verbose = false :=
  ⟨rfl, rfl, rfl⟩

end Clearical
